import Mathlib

/-!
# ascii: glyph atlas construction and per-character quad rendering

A shallow embedding of `src/ascii.hpp` and `src/ascii.cpp`.

* `float` values are rationals: every arithmetic operation is taken exactly.
* `int` fields are integers, `unsigned int` fields are naturals.
* A `std::map<GLchar, character>` is a partial function from character codes
  to glyph records (`CharMap`), with `std::map::insert` and
  `std::map::operator[]` given their standard meaning.
* Calls into OpenGL are recorded, in program order, as a list of `GLCall`s.
  What the graphics context does with them is read back by `replay`.
* FreeType is a black box: `FreeType` fixes the error code each entry point
  returns and the glyph slot a successful `FT_Load_Char` leaves behind. The
  slot's members have FreeType's types; storing them into a `character`
  converts them (`int_of_unsigned`, `unsigned_of_long`).
* `renderer::update_size` is declared in `ascii.hpp` and defined nowhere; it is
  modelled from its specification.
-/

namespace ascii

/-! ## Data model (`ascii.hpp`) -/

abbrev GLuint := Nat

/-- A `GLchar` is a C `char`; its numeric value is what keys the atlas. -/
abbrev GLchar := Int

/-- The type `glm::ivec2`. -/
structure ivec2 where
  x : Int
  y : Int
deriving DecidableEq

/-- The type `glm::vec3`, with exact components. -/
structure vec3 where
  x : ℚ
  y : ℚ
  z : ℚ
deriving DecidableEq

/-- The record `struct character` of `ascii.hpp`. -/
structure character where
  texture : GLuint
  size : ivec2
  bearing : ivec2
  advance : Nat
deriving DecidableEq

/-- A value-initialised `character`, as `std::map::operator[]` creates for a
key that is absent: every member is zero. -/
def character.zero : character :=
  { texture := 0, size := ⟨0, 0⟩, bearing := ⟨0, 0⟩, advance := 0 }

/-- A `std::map<GLchar, character>`: at most one record per key. -/
abbrev CharMap := GLchar → Option character

namespace CharMap

/-- The empty map, as default-constructed. -/
def empty : CharMap := fun _ => none

/-- The call `m.insert(std::pair(k, v))`: a key that is already present keeps
its record. -/
def insert (m : CharMap) (k : GLchar) (v : character) : CharMap :=
  fun k' => if k' = k then (match m k with
    | some old => some old
    | none => some v) else m k'

/-- The expression `m[k]`: the record stored under `k`, after inserting a
value-initialised record when `k` is absent. Returns the map afterwards and the
record. -/
def subscript (m : CharMap) (k : GLchar) : CharMap × character :=
  match m k with
  | some v => (m, v)
  | none => (fun k' => if k' = k then some character.zero else m k', character.zero)

end CharMap

/-! ## The graphics context -/

/-- The OpenGL enumerants the source names. -/
inductive GLenum where
  | GL_UNPACK_ALIGNMENT
  | GL_TEXTURE_2D
  | GL_RED
  | GL_UNSIGNED_BYTE
  | GL_TEXTURE_WRAP_S
  | GL_TEXTURE_WRAP_T
  | GL_TEXTURE_MIN_FILTER
  | GL_TEXTURE_MAG_FILTER
  | GL_CLAMP_TO_EDGE
  | GL_LINEAR
  | GL_FALSE
  | GL_ARRAY_BUFFER
  | GL_DYNAMIC_DRAW
  | GL_FLOAT
  | GL_TEXTURE0
  | GL_TRIANGLES
deriving DecidableEq

open GLenum

/-- One call into the graphics context, with the arguments the source passes.
Object names that the context hands out (`glGen*`) appear as the name that was
returned. -/
inductive GLCall where
  | glPixelStorei (pname : GLenum) (param : Int)
  | glGenTextures (n : Nat) (texture : GLuint)
  | glBindTexture (target : GLenum) (texture : GLuint)
  | glTexImage2D (target : GLenum) (level : Int) (internalformat : GLenum)
      (width height : Int) (border : Int) (format type : GLenum) (pixels : List Nat)
  | glTexParameteri (target pname param : GLenum)
  | glUseProgram (program : GLuint)
  | glUniformMatrix4fv (program : GLuint) (name : String) (count : Nat)
      (transpose : GLenum) (value : List ℚ)
  | glUniform3f (program : GLuint) (name : String) (v0 v1 v2 : ℚ)
  | glActiveTexture (texture : GLenum)
  | glGenVertexArrays (n : Nat) (array : GLuint)
  | glGenBuffers (n : Nat) (buffer : GLuint)
  | glBindVertexArray (array : GLuint)
  | glBindBuffer (target : GLenum) (buffer : GLuint)
  | glBufferData (target : GLenum) (size : Nat) (usage : GLenum)
  | glEnableVertexAttribArray (index : Nat)
  | glVertexAttribPointer (index : Nat) (size : Int) (type normalized : GLenum)
      (stride : Nat) (pointer : Nat)
  | glBufferSubData (target : GLenum) (offset size : Nat) (data : List (List ℚ))
  | glDrawArrays (mode : GLenum) (first count : Nat)
deriving DecidableEq

open GLCall

/-- The size in bytes of a `float`. -/
def sizeof_float : Nat := 4

/-! ## `renderer::render` (`ascii.cpp`, lines 95 to 142) -/

namespace quad

/-- Line 111: `float xpos = x + ch.bearing.x * scale;`. -/
def xpos (ch : character) (x scale : ℚ) : ℚ := x + (ch.bearing.x : ℚ) * scale

/-- Line 112: `float ypos = y - (ch.size.y - ch.bearing.y) * scale;`. The
difference is taken on `int`s and then converted. -/
def ypos (ch : character) (y scale : ℚ) : ℚ :=
  y - ((ch.size.y - ch.bearing.y : Int) : ℚ) * scale

/-- Line 114: `float w = ch.size.x * scale;`. -/
def w (ch : character) (scale : ℚ) : ℚ := (ch.size.x : ℚ) * scale

/-- Line 115: `float h = ch.size.y * scale;`. -/
def h (ch : character) (scale : ℚ) : ℚ := (ch.size.y : ℚ) * scale

/-- Lines 117 to 122: the array `float vertices[6][4]`. -/
def vertices (xpos ypos w h : ℚ) : List (List ℚ) :=
  [[xpos, ypos + h, 0, 0], [xpos, ypos, 0, 1], [xpos + w, ypos, 1, 1],
   [xpos, ypos + h, 0, 0], [xpos + w, ypos, 1, 1], [xpos + w, ypos + h, 1, 0]]

/-- The vertex array built for glyph `ch` with the cursor at `x`. -/
def of (ch : character) (x y scale : ℚ) : List (List ℚ) :=
  vertices (xpos ch x scale) (ypos ch y scale) (w ch scale) (h ch scale)

end quad

/-- Line 136: the step `(ch.advance >> 6) * scale` added to the cursor. -/
def advance_step (ch : character) (scale : ℚ) : ℚ :=
  ((ch.advance >>> 6 : Nat) : ℚ) * scale

/-- The members of `class renderer`. -/
structure renderer where
  characters_ : CharMap
  vao_ : GLuint
  vbo_ : GLuint
  program_ : GLuint

/-- What one run of `render` has done so far: the glyph mapping of the
renderer, the local cursor `x`, and the calls issued. -/
structure RenderState where
  characters_ : CharMap
  x : ℚ
  gl : List GLCall

/-- The body of the loop of `render` (lines 109 to 136) for the character `c`. -/
def render_body (vbo_ : GLuint) (y scale : ℚ) (s : RenderState) (c : GLchar) :
    RenderState :=
  let lookup := CharMap.subscript s.characters_ c
  let ch := lookup.2
  { characters_ := lookup.1
    x := s.x + advance_step ch scale
    gl := s.gl ++
      [glBindTexture GL_TEXTURE_2D ch.texture,
       glBindBuffer GL_ARRAY_BUFFER vbo_,
       glBufferSubData GL_ARRAY_BUFFER 0 (sizeof_float * 6 * 4) (quad.of ch s.x y scale),
       glBindBuffer GL_ARRAY_BUFFER 0,
       glDrawArrays GL_TRIANGLES 0 6] }

/-- The method `renderer::render`. The text is the sequence of its `char`s. -/
def renderer.render (r : renderer) (text : List GLchar) (x y scale : ℚ)
    (color : vec3) : RenderState :=
  let s0 : RenderState :=
    { characters_ := r.characters_
      x := x
      gl := [glUseProgram r.program_,
             glUniform3f r.program_ "textColor" color.x color.y color.z,
             glActiveTexture GL_TEXTURE0,
             glBindVertexArray r.vao_] }
  let s1 := text.foldl (render_body r.vbo_ y scale) s0
  { s1 with gl := s1.gl ++ [glBindVertexArray 0, glBindTexture GL_TEXTURE_2D 0] }

/-! ## Reading a call sequence back -/

/-- One draw as the context performs it. -/
structure DrawRecord where
  texture : GLuint
  vertices : List (List ℚ)
  mode : GLenum
  first : Nat
  count : Nat
deriving DecidableEq

/-- The part of the context state that decides what a draw shows: the texture
bound to `GL_TEXTURE_2D`, the buffer bound to `GL_ARRAY_BUFFER`, the contents of
the renderer's vertex buffer, and the logs of sub-uploads (target buffer and
data) and draws. -/
structure GLView where
  texture2D : GLuint
  arrayBuffer : GLuint
  store : List (List ℚ)
  uploads : List (GLuint × List (List ℚ))
  draws : List DrawRecord
deriving DecidableEq

/-- The view before any call. -/
def GLView.init : GLView :=
  { texture2D := 0, arrayBuffer := 0, store := [], uploads := [], draws := [] }

/-- The effect of one call on the view, `vbo` being the buffer the vertex array
reads attribute 0 from. -/
def observe (vbo : GLuint) (v : GLView) : GLCall → GLView
  | glBindTexture GL_TEXTURE_2D t => { v with texture2D := t }
  | glBindBuffer GL_ARRAY_BUFFER b => { v with arrayBuffer := b }
  | glBufferSubData GL_ARRAY_BUFFER _ _ data =>
      { v with
        store := if v.arrayBuffer = vbo then data else v.store
        uploads := v.uploads ++ [(v.arrayBuffer, data)] }
  | glDrawArrays mode first count =>
      { v with
        draws := v.draws ++
          [{ texture := v.texture2D, vertices := v.store, mode := mode,
             first := first, count := count }] }
  | _ => v

/-- The view after a call sequence. -/
def replay (vbo : GLuint) (v : GLView) (calls : List GLCall) : GLView :=
  calls.foldl (observe vbo) v

/-- The record `render` works with for the character `c`: the one stored under
`c`, or the value-initialised record that the lookup creates. -/
def glyph (m : CharMap) (c : GLchar) : character :=
  match m c with
  | some ch => ch
  | none => character.zero

/-- The horizontal advance, in whole pixels, of the glyph used for `c`. -/
def advance_px (m : CharMap) (c : GLchar) : Nat := (glyph m c).advance >>> 6

/-- The cursor before the `i`-th character of `text`: the start position plus
the scaled advances of the characters before it. -/
def pen (m : CharMap) (text : List GLchar) (x scale : ℚ) (i : Nat) : ℚ :=
  x + (((text.take i).map (advance_px m)).sum : ℚ) * scale

/-! ## What the loop of `render` amounts to -/

/-- The calls the loop issues from cursor `x` on, for the records `g`. -/
def loop_calls (vbo : GLuint) (g : GLchar → character) (y scale : ℚ) :
    ℚ → List GLchar → List GLCall
  | _, [] => []
  | x, c :: cs =>
      [glBindTexture GL_TEXTURE_2D (g c).texture,
       glBindBuffer GL_ARRAY_BUFFER vbo,
       glBufferSubData GL_ARRAY_BUFFER 0 (sizeof_float * 6 * 4) (quad.of (g c) x y scale),
       glBindBuffer GL_ARRAY_BUFFER 0,
       glDrawArrays GL_TRIANGLES 0 6] ++
      loop_calls vbo g y scale (x + advance_step (g c) scale) cs

/-- The sub-uploads those calls amount to. -/
def loop_uploads (vbo : GLuint) (g : GLchar → character) (y scale : ℚ) :
    ℚ → List GLchar → List (GLuint × List (List ℚ))
  | _, [] => []
  | x, c :: cs =>
      (vbo, quad.of (g c) x y scale) ::
        loop_uploads vbo g y scale (x + advance_step (g c) scale) cs

/-- The draws those calls amount to. -/
def loop_draws (g : GLchar → character) (y scale : ℚ) :
    ℚ → List GLchar → List DrawRecord
  | _, [] => []
  | x, c :: cs =>
      { texture := (g c).texture, vertices := quad.of (g c) x y scale,
        mode := GL_TRIANGLES, first := 0, count := 6 } ::
        loop_draws g y scale (x + advance_step (g c) scale) cs

/-- An atlas with the key set `init_characters` builds, codes 0 to 127, every
glyph with the metrics of the glyph `'A'` of the worked example. -/
def atlas_128 : CharMap :=
  fun k => if 0 ≤ k ∧ k < 128 then
    some { texture := k.toNat + 1, size := ⟨30, 40⟩, bearing := ⟨2, 38⟩, advance := 2048 }
  else none

/-- A renderer over `atlas_128`. -/
def renderer_128 : renderer :=
  { characters_ := atlas_128, vao_ := 1, vbo_ := 2, program_ := 3 }

/-- The colour white. -/
def white : vec3 := ⟨1, 1, 1⟩

/-! ## `init_characters` (`ascii.cpp`, lines 13 to 64) -/

/-- The members of the glyph slot `face->glyph` that `init_characters` reads
after a successful `FT_Load_Char`, at the types FreeType declares them with:
`bitmap.width` and `bitmap.rows` are `unsigned int`, `bitmap_left` and
`bitmap_top` are `FT_Int` (`int`), and `advance.x` is `FT_Pos`
(`signed long`). -/
structure FT_GlyphSlot where
  bitmap_width : Nat
  bitmap_rows : Nat
  bitmap_buffer : List Nat
  bitmap_left : Int
  bitmap_top : Int
  advance_x : Int
deriving DecidableEq

/-- The conversion of an `unsigned int` to `int` (32 bits): the value modulo
`2^32`, read as a two's complement number. -/
def int_of_unsigned (n : Nat) : Int :=
  if n % 2 ^ 32 < 2 ^ 31 then ((n % 2 ^ 32 : Nat) : Int)
  else ((n % 2 ^ 32 : Nat) : Int) - 2 ^ 32

/-- The conversion of a `signed long` to `unsigned int` (32 bits): the value
modulo `2^32`. -/
def unsigned_of_long (v : Int) : Nat := (v % 2 ^ 32).toNat

/-- The behaviour of the rasterizer: the error code of `FT_Init_FreeType`, the
error code of `FT_New_Face` for a font path, and, for a font path and a
character code, the error code of `FT_Load_Char` with the glyph slot it leaves.
An error code of 0 is success. -/
structure FreeType where
  init_error : Nat
  new_face_error : String → Nat
  load_char : String → Nat → Nat × FT_GlyphSlot

/-- The rasterization handles a call currently holds: the library handle `ft`
and the face handle `face`. -/
structure Handles where
  library : Bool
  face : Bool
deriving DecidableEq

/-- The call `FT_Init_FreeType(&ft)`: on success the library handle is held. -/
def FT_Init_FreeType (lib : FreeType) (held : Handles) : Nat × Handles :=
  (lib.init_error, if lib.init_error = 0 then { held with library := true } else held)

/-- The call `FT_New_Face(ft, font, 0, &face)`: on success the face handle is
held. -/
def FT_New_Face (lib : FreeType) (font : String) (held : Handles) : Nat × Handles :=
  (lib.new_face_error font,
    if lib.new_face_error font = 0 then { held with face := true } else held)

/-- The call `FT_Done_Face(face)`. -/
def FT_Done_Face (held : Handles) : Handles := { held with face := false }

/-- The call `FT_Done_FreeType(ft)`. -/
def FT_Done_FreeType (held : Handles) : Handles := { held with library := false }

/-- The record built at lines 51 to 55 from the glyph slot and the texture.
The constructor `glm::ivec2(width, rows)` converts the two `unsigned int`s to
`int`, and initialising `unsigned int advance` from `advance.x` converts the
`signed long`. -/
def character.of_slot (texture : GLuint) (slot : FT_GlyphSlot) : character :=
  { texture := texture
    size := ⟨int_of_unsigned slot.bitmap_width, int_of_unsigned slot.bitmap_rows⟩
    bearing := ⟨slot.bitmap_left, slot.bitmap_top⟩
    advance := unsigned_of_long slot.advance_x }

/-- The loop of lines 33 to 57, with `n` iterations left and `c` the current
character code; `gen c` is the texture name `glGenTextures` returns in the
iteration for `c`. A failing `FT_Load_Char` throws. The width and height
parameters of `glTexImage2D` are `GLsizei`, an `int`. -/
def load_characters (lib : FreeType) (gen : Nat → GLuint) (font : String) :
    Nat → Nat → CharMap → List GLCall → Except String CharMap × List GLCall
  | 0, _, characters, gl => (Except.ok characters, gl)
  | n + 1, c, characters, gl =>
      if (lib.load_char font c).1 ≠ 0 then
        (Except.error "failed to load glyph", gl)
      else
        let slot := (lib.load_char font c).2
        let texture := gen c
        load_characters lib gen font n (c + 1)
          (characters.insert (c : Int) (character.of_slot texture slot))
          (gl ++
            [glGenTextures 1 texture,
             glBindTexture GL_TEXTURE_2D texture,
             glTexImage2D GL_TEXTURE_2D 0 GL_RED (int_of_unsigned slot.bitmap_width)
               (int_of_unsigned slot.bitmap_rows) 0 GL_RED GL_UNSIGNED_BYTE
               slot.bitmap_buffer,
             glTexParameteri GL_TEXTURE_2D GL_TEXTURE_WRAP_S GL_CLAMP_TO_EDGE,
             glTexParameteri GL_TEXTURE_2D GL_TEXTURE_WRAP_T GL_CLAMP_TO_EDGE,
             glTexParameteri GL_TEXTURE_2D GL_TEXTURE_MIN_FILTER GL_LINEAR,
             glTexParameteri GL_TEXTURE_2D GL_TEXTURE_MAG_FILTER GL_LINEAR])

/-- How a call of `init_characters` ends: the map returned or the exception
thrown, the rasterization handles still held, and the calls issued to the
graphics context. -/
structure InitResult where
  result : Except String CharMap
  held : Handles
  gl : List GLCall

/-- The function `init_characters`. Each `throw` leaves the function at once,
with the handles as they are at that point; `FT_Set_Pixel_Sizes(face, 0, 48)`
(line 27) has its result ignored and issues no call to the graphics context. -/
def init_characters (lib : FreeType) (gen : Nat → GLuint) (font : String) : InitResult :=
  let r1 := FT_Init_FreeType lib { library := false, face := false }
  if r1.1 ≠ 0 then
    { result := Except.error "could not init freetype lib", held := r1.2, gl := [] }
  else
    let r2 := FT_New_Face lib font r1.2
    if r2.1 ≠ 0 then
      { result := Except.error "failed to load font", held := r2.2, gl := [] }
    else
      match load_characters lib gen font 128 0 CharMap.empty
          [glPixelStorei GL_UNPACK_ALIGNMENT 1] with
      | (Except.error e, gl) => { result := Except.error e, held := r2.2, gl := gl }
      | (Except.ok characters, gl) =>
          { result := Except.ok characters
            held := FT_Done_FreeType (FT_Done_Face r2.2)
            gl := gl ++ [glBindTexture GL_TEXTURE_2D 0] }

/-- A glyph slot with the metrics of the worked example. -/
def slot_A : FT_GlyphSlot :=
  { bitmap_width := 30, bitmap_rows := 40, bitmap_buffer := [],
    bitmap_left := 2, bitmap_top := 38, advance_x := 2048 }

/-- A rasterizer for which every call succeeds. -/
def freetype_ok : FreeType :=
  { init_error := 0, new_face_error := fun _ => 0, load_char := fun _ _ => (0, slot_A) }

/-- A rasterizer for which every call succeeds and which reports, for every
code, a horizontal advance of -64 (one pixel to the left). -/
def freetype_negative_advance : FreeType :=
  { init_error := 0, new_face_error := fun _ => 0,
    load_char := fun _ _ => (0, { slot_A with advance_x := -64 }) }

/-- A rasterizer that cannot open the font. -/
def freetype_no_font : FreeType :=
  { init_error := 0, new_face_error := fun _ => 1, load_char := fun _ _ => (0, slot_A) }

/-- A rasterizer that cannot render the character code 100. -/
def freetype_no_glyph : FreeType :=
  { init_error := 0, new_face_error := fun _ => 0,
    load_char := fun _ c => (if c = 100 then 6 else 0, slot_A) }

/-- Texture names as a context hands them out: 1, 2, 3, and so on. -/
def gen_succ : Nat → GLuint := fun c => c + 1

/-! ## Construction and resize of the renderer -/

/-- The matrix `glm::ortho(left, right, bottom, top)`, as the 16 values
`glm::value_ptr` exposes (column after column). -/
def ortho (left right bottom top : ℚ) : List ℚ :=
  [2 / (right - left), 0, 0, 0,
   0, 2 / (top - bottom), 0, 0,
   0, 0, -1, 0,
   -(right + left) / (right - left), -(top + bottom) / (top - bottom), 0, 1]

/-- The method `renderer::init_shader` (lines 74 to 81). -/
def renderer.init_shader (program_ : GLuint) (width height : ℚ) : List GLCall :=
  [glUseProgram program_,
   glUniformMatrix4fv program_ "projection" 1 GL_FALSE (ortho 0 width 0 height)]

/-- The method `renderer::init_vertices` (lines 83 to 93), `vao` and `vbo`
being the names the context generates. -/
def renderer.init_vertices (vao vbo : GLuint) : List GLCall :=
  [glGenVertexArrays 1 vao,
   glGenBuffers 1 vbo,
   glBindVertexArray vao,
   glBindBuffer GL_ARRAY_BUFFER vbo,
   glBufferData GL_ARRAY_BUFFER (sizeof_float * 6 * 4) GL_DYNAMIC_DRAW,
   glEnableVertexAttribArray 0,
   glVertexAttribPointer 0 4 GL_FLOAT GL_FALSE (4 * sizeof_float) 0,
   glBindBuffer GL_ARRAY_BUFFER 0,
   glBindVertexArray 0]

/-- The constructor `renderer::renderer` (lines 66 to 72): the renderer built
and the calls issued. -/
def renderer.construct (program : GLuint) (characters : CharMap) (width height : ℚ)
    (vao vbo : GLuint) : renderer × List GLCall :=
  ({ characters_ := characters, vao_ := vao, vbo_ := vbo, program_ := program },
   renderer.init_shader program width height ++ renderer.init_vertices vao vbo)

/-- Modelled from the spec: `renderer::update_size`, which `ascii.hpp` declares
(line 93) and no source file defines. It "recomputes and re-uploads the
orthographic projection uniform" for the new surface size, and changes no
member of the renderer. -/
def renderer.update_size (r : renderer) (width height : ℚ) : renderer × List GLCall :=
  (r, [glUseProgram r.program_,
       glUniformMatrix4fv r.program_ "projection" 1 GL_FALSE (ortho 0 width 0 height)])

/-- The value of the uniform `projection` of `program` after a call sequence:
the last one uploaded, if any. -/
def projection_uniform (program : GLuint) (calls : List GLCall) : Option (List ℚ) :=
  calls.foldl (fun last call =>
    match call with
    | glUniformMatrix4fv p name _ _ value =>
        if p = program ∧ name = "projection" then some value else last
    | _ => last) none

/-- The vertex data of a `render` call: what each sub-upload wrote, in order. -/
def vertex_data (r : renderer) (text : List GLchar) (x y scale : ℚ) (color : vec3) :
    List (List (List ℚ)) :=
  (replay r.vbo_ GLView.init (r.render text x y scale color).gl).uploads.map Prod.snd

/-! ## Geometry of a quad -/

/-- The position `vertex.xy` of a vertex of four floats. -/
def position (v : List ℚ) : ℚ × ℚ := (v.getD 0 0, v.getD 1 0)

/-- The texture coordinate `vertex.zw` of a vertex of four floats. -/
def texcoord (v : List ℚ) : ℚ × ℚ := (v.getD 2 0, v.getD 3 0)

/-- The triangles a `GL_TRIANGLES` draw assembles: one per three consecutive
vertices. -/
def triangles : List (List ℚ) → List ((ℚ × ℚ) × (ℚ × ℚ) × (ℚ × ℚ))
  | a :: b :: c :: rest => (position a, position b, position c) :: triangles rest
  | _ => []

/-- The point `p` lies in the closed triangle of corners `a`, `b`, `c`. -/
def in_triangle (a b c p : ℚ × ℚ) : Prop :=
  ∃ u v t : ℚ, 0 ≤ u ∧ 0 ≤ v ∧ 0 ≤ t ∧ u + v + t = 1 ∧
    p.1 = u * a.1 + v * b.1 + t * c.1 ∧ p.2 = u * a.2 + v * b.2 + t * c.2

/-- The point `p` lies in the rectangle `[x0, x0 + w] x [y0, y0 + h]`. -/
def in_rect (x0 y0 w h : ℚ) (p : ℚ × ℚ) : Prop :=
  x0 ≤ p.1 ∧ p.1 ≤ x0 + w ∧ y0 ≤ p.2 ∧ p.2 ≤ y0 + h

/-- The point `p` lies on the closed segment from `a` to `b`. -/
def on_segment (a b p : ℚ × ℚ) : Prop :=
  ∃ t : ℚ, 0 ≤ t ∧ t ≤ 1 ∧
    p.1 = (1 - t) * a.1 + t * b.1 ∧ p.2 = (1 - t) * a.2 + t * b.2

/-! ## Lemmas on the lookup -/

theorem subscript_snd (m : CharMap) (c : GLchar) :
    (CharMap.subscript m c).2 = glyph m c := by
  unfold CharMap.subscript glyph
  cases h : m c <;> simp

theorem subscript_fst_of_some (m : CharMap) (c : GLchar) (ch : character)
    (h : m c = some ch) : (CharMap.subscript m c).1 = m := by
  unfold CharMap.subscript
  simp [h]

theorem glyph_subscript (m : CharMap) (c : GLchar) :
    glyph (CharMap.subscript m c).1 = glyph m := by
  funext k
  unfold CharMap.subscript glyph
  cases h : m c with
  | some v => simp
  | none =>
    by_cases hk : k = c
    · subst hk
      simp [h]
    · simp [hk]

theorem glyph_of_some (m : CharMap) (c : GLchar) (ch : character)
    (h : m c = some ch) : glyph m c = ch := by
  unfold glyph
  simp [h]

theorem advance_px_subscript (m : CharMap) (c : GLchar) :
    advance_px (CharMap.subscript m c).1 = advance_px m := by
  funext k
  simp only [advance_px, glyph_subscript]

theorem foldl_render_body_gl (vbo : GLuint) (y scale : ℚ) (text : List GLchar) :
    ∀ s : RenderState,
      (text.foldl (render_body vbo y scale) s).gl =
        s.gl ++ loop_calls vbo (glyph s.characters_) y scale s.x text := by
  induction text with
  | nil => intro s; simp [loop_calls]
  | cons c cs ih =>
    intro s
    rw [List.foldl_cons, ih]
    simp only [render_body, subscript_snd, glyph_subscript, loop_calls, List.append_assoc]

theorem foldl_render_body_x (vbo : GLuint) (y scale : ℚ) (text : List GLchar) :
    ∀ s : RenderState,
      (text.foldl (render_body vbo y scale) s).x =
        s.x + ((text.map (advance_px s.characters_)).sum : ℚ) * scale := by
  induction text with
  | nil => intro s; simp
  | cons c cs ih =>
    intro s
    rw [List.foldl_cons, ih]
    simp only [render_body, subscript_snd, advance_px_subscript, advance_step,
      List.map_cons, List.sum_cons, Nat.cast_add, advance_px]
    ring

theorem foldl_render_body_characters (vbo : GLuint) (y scale : ℚ) (text : List GLchar) :
    ∀ s : RenderState, (∀ c ∈ text, (s.characters_ c).isSome) →
      (text.foldl (render_body vbo y scale) s).characters_ = s.characters_ := by
  induction text with
  | nil => intro s _; rfl
  | cons c cs ih =>
    intro s hs
    obtain ⟨ch, hch⟩ := Option.isSome_iff_exists.mp (hs c (List.mem_cons_self c cs))
    have h1 : (render_body vbo y scale s c).characters_ = s.characters_ := by
      simp only [render_body]
      exact subscript_fst_of_some _ _ _ hch
    rw [List.foldl_cons, ih, h1]
    intro k hk
    rw [h1]
    exact hs k (List.mem_cons_of_mem c hk)

theorem replay_append (vbo : GLuint) (v : GLView) (a b : List GLCall) :
    replay vbo v (a ++ b) = replay vbo (replay vbo v a) b := by
  simp [replay, List.foldl_append]

theorem replay_loop_calls (vbo : GLuint) (g : GLchar → character) (y scale : ℚ)
    (text : List GLchar) :
    ∀ (x : ℚ) (v : GLView),
      (replay vbo v (loop_calls vbo g y scale x text)).uploads =
          v.uploads ++ loop_uploads vbo g y scale x text ∧
      (replay vbo v (loop_calls vbo g y scale x text)).draws =
          v.draws ++ loop_draws g y scale x text := by
  induction text with
  | nil => intro x v; simp [loop_calls, loop_uploads, loop_draws, replay]
  | cons c cs ih =>
    intro x v
    simp only [loop_calls, loop_uploads, loop_draws]
    rw [replay_append]
    obtain ⟨hu, hd⟩ := ih (x + advance_step (g c) scale)
      (replay vbo v
        [glBindTexture GL_TEXTURE_2D (g c).texture,
         glBindBuffer GL_ARRAY_BUFFER vbo,
         glBufferSubData GL_ARRAY_BUFFER 0 (sizeof_float * 6 * 4) (quad.of (g c) x y scale),
         glBindBuffer GL_ARRAY_BUFFER 0,
         glDrawArrays GL_TRIANGLES 0 6])
    rw [hu, hd]
    simp [replay, observe]

/-- The uploads and draws of a whole `render` call. -/
theorem replay_render (r : renderer) (text : List GLchar) (x y scale : ℚ) (color : vec3) :
    (replay r.vbo_ GLView.init (r.render text x y scale color).gl).uploads =
        loop_uploads r.vbo_ (glyph r.characters_) y scale x text ∧
    (replay r.vbo_ GLView.init (r.render text x y scale color).gl).draws =
        loop_draws (glyph r.characters_) y scale x text := by
  simp only [renderer.render, foldl_render_body_gl]
  rw [replay_append, replay_append]
  obtain ⟨hu, hd⟩ := replay_loop_calls r.vbo_ (glyph r.characters_) y scale text x
    (replay r.vbo_ GLView.init
      [glUseProgram r.program_,
       glUniform3f r.program_ "textColor" color.x color.y color.z,
       glActiveTexture GL_TEXTURE0,
       glBindVertexArray r.vao_])
  constructor
  · have : ∀ v : GLView, (replay r.vbo_ v
        [glBindVertexArray 0, glBindTexture GL_TEXTURE_2D 0]).uploads = v.uploads := by
      intro v; simp [replay, observe]
    rw [this, hu]
    simp [replay, observe, GLView.init]
  · have : ∀ v : GLView, (replay r.vbo_ v
        [glBindVertexArray 0, glBindTexture GL_TEXTURE_2D 0]).draws = v.draws := by
      intro v; simp [replay, observe]
    rw [this, hd]
    simp [replay, observe, GLView.init]

theorem loop_uploads_length (vbo : GLuint) (g : GLchar → character) (y scale : ℚ)
    (text : List GLchar) :
    ∀ x : ℚ, (loop_uploads vbo g y scale x text).length = text.length := by
  induction text with
  | nil => intro x; rfl
  | cons c cs ih => intro x; simp [loop_uploads, ih]

theorem loop_draws_length (g : GLchar → character) (y scale : ℚ) (text : List GLchar) :
    ∀ x : ℚ, (loop_draws g y scale x text).length = text.length := by
  induction text with
  | nil => intro x; rfl
  | cons c cs ih => intro x; simp [loop_draws, ih]

theorem pen_zero (m : CharMap) (text : List GLchar) (x scale : ℚ) :
    pen m text x scale 0 = x := by
  simp [pen]

theorem pen_succ (m : CharMap) (c : GLchar) (cs : List GLchar) (x scale : ℚ) (i : Nat) :
    pen m (c :: cs) x scale (i + 1) =
      pen m cs (x + advance_step (glyph m c) scale) scale i := by
  simp only [pen, List.take_succ_cons, List.map_cons, List.sum_cons, Nat.cast_add,
    advance_step, advance_px]
  ring

theorem loop_uploads_get (vbo : GLuint) (m : CharMap) (y scale : ℚ) (text : List GLchar) :
    ∀ (x : ℚ) (i : Nat) (c : GLchar), text[i]? = some c →
      (loop_uploads vbo (glyph m) y scale x text)[i]? =
        some (vbo, quad.of (glyph m c) (pen m text x scale i) y scale) := by
  induction text with
  | nil => intro x i c h; simp at h
  | cons d ds ih =>
    intro x i c h
    cases i with
    | zero =>
      simp only [List.getElem?_cons_zero, Option.some.injEq] at h
      subst h
      simp [loop_uploads, pen_zero]
    | succ j =>
      simp only [List.getElem?_cons_succ] at h
      simp only [loop_uploads, List.getElem?_cons_succ, pen_succ]
      exact ih _ j c h

theorem loop_draws_get (m : CharMap) (y scale : ℚ) (text : List GLchar) :
    ∀ (x : ℚ) (i : Nat) (c : GLchar), text[i]? = some c →
      (loop_draws (glyph m) y scale x text)[i]? =
        some { texture := (glyph m c).texture,
               vertices := quad.of (glyph m c) (pen m text x scale i) y scale,
               mode := GL_TRIANGLES, first := 0, count := 6 } := by
  induction text with
  | nil => intro x i c h; simp at h
  | cons d ds ih =>
    intro x i c h
    cases i with
    | zero =>
      simp only [List.getElem?_cons_zero, Option.some.injEq] at h
      subst h
      simp [loop_draws, pen_zero]
    | succ j =>
      simp only [List.getElem?_cons_succ] at h
      simp only [loop_draws, List.getElem?_cons_succ, pen_succ]
      exact ih _ j c h

theorem render_x (r : renderer) (text : List GLchar) (x y scale : ℚ) (color : vec3) :
    (r.render text x y scale color).x =
      x + ((text.map (advance_px r.characters_)).sum : ℚ) * scale := by
  simp only [renderer.render, foldl_render_body_x]

theorem render_take_x (r : renderer) (text : List GLchar) (x y scale : ℚ) (color : vec3)
    (i : Nat) :
    (r.render (text.take i) x y scale color).x = pen r.characters_ text x scale i := by
  rw [render_x]
  rfl

theorem pen_step (m : CharMap) (text : List GLchar) (x scale : ℚ) (i : Nat) (c : GLchar)
    (h : text[i]? = some c) :
    pen m text x scale (i + 1) = pen m text x scale i + (advance_px m c : ℚ) * scale := by
  simp only [pen, List.take_succ, h, Option.toList, List.map_append, List.sum_append,
    List.map_cons, List.map_nil, List.sum_cons, List.sum_nil, Nat.cast_add, add_zero]
  ring

theorem render_characters (r : renderer) (text : List GLchar) (x y scale : ℚ) (color : vec3)
    (k : GLchar) :
    (r.render text x y scale color).characters_ k =
      if k ∈ text then some (glyph r.characters_ k) else r.characters_ k := by
  have key : ∀ (t : List GLchar) (s : RenderState),
      (t.foldl (render_body r.vbo_ y scale) s).characters_ k =
        if k ∈ t then some (glyph s.characters_ k) else s.characters_ k := by
    intro t
    induction t with
    | nil => intro s; simp
    | cons c cs ih =>
      intro s
      rw [List.foldl_cons, ih]
      simp only [render_body, glyph_subscript, List.mem_cons]
      by_cases hk : k ∈ cs
      · simp [hk]
      · simp only [hk, if_false, or_false]
        by_cases hc : k = c
        · subst hc
          simp only [if_true]
          unfold CharMap.subscript glyph
          cases hm : s.characters_ k <;> simp [hm]
        · simp only [hc, if_false]
          unfold CharMap.subscript
          cases hm : s.characters_ c <;> simp [hc]
  simp only [renderer.render]
  exact key text _

/-! ## The claims on `renderer::render` -/

/-- C1: for every glyph record `ch` stored under a character `c` of the text
and for every start position and scale, the quad `render` uploads for that
character, with the cursor at `X`, has origin `xpos = X + bearing.x * scale`,
`ypos = y - (size.y - bearing.y) * scale` and extent `w = size.x * scale`,
`h = size.y * scale`: the six vertices written to the vertex buffer are
`(xpos, ypos + h)`, `(xpos, ypos)`, `(xpos + w, ypos)`, `(xpos, ypos + h)`,
`(xpos + w, ypos)`, `(xpos + w, ypos + h)`, each with its texture coordinate,
and the cursor after the character is `X + (advance >> 6) * scale`. -/
theorem render_quad_origin_extent (r : renderer) (text : List GLchar) (x y scale : ℚ)
    (color : vec3) (i : Nat) (c : GLchar) (ch : character)
    (hi : text[i]? = some c) (hc : r.characters_ c = some ch) :
    ∃ xpos ypos w h : ℚ,
      xpos = (r.render (text.take i) x y scale color).x + (ch.bearing.x : ℚ) * scale ∧
      ypos = y - ((ch.size.y : ℚ) - (ch.bearing.y : ℚ)) * scale ∧
      w = (ch.size.x : ℚ) * scale ∧
      h = (ch.size.y : ℚ) * scale ∧
      (replay r.vbo_ GLView.init (r.render text x y scale color).gl).uploads[i]? =
        some (r.vbo_,
          [[xpos, ypos + h, 0, 0], [xpos, ypos, 0, 1], [xpos + w, ypos, 1, 1],
           [xpos, ypos + h, 0, 0], [xpos + w, ypos, 1, 1], [xpos + w, ypos + h, 1, 0]]) ∧
      (r.render (text.take (i + 1)) x y scale color).x =
        (r.render (text.take i) x y scale color).x +
          ((ch.advance >>> 6 : Nat) : ℚ) * scale := by
  refine ⟨_, _, _, _, rfl, rfl, rfl, rfl, ?_, ?_⟩
  · rw [(replay_render r text x y scale color).1, loop_uploads_get r.vbo_ _ y scale text x i c hi,
      glyph_of_some _ _ _ hc, render_take_x]
    simp only [quad.of, quad.vertices, quad.xpos, quad.ypos, quad.w, quad.h, Int.cast_sub]
  · rw [render_take_x, render_take_x, pen_step _ _ _ _ _ _ hi]
    simp only [advance_px, glyph_of_some _ _ _ hc]

/-- C1, worked example: `render("A", 100, 200, 1.0, color)` with the glyph
`'A'` of size (30, 40), bearing (2, 38) and advance 2048 uploads the quad of
origin (102, 198) and extent 30 by 40, that is the corners (102, 238),
(102, 198), (132, 198), (102, 238), (132, 198), (132, 238), and leaves the
cursor at 132. -/
theorem render_quad_origin_extent_witness :
    ([65] : List GLchar)[0]? = some 65 ∧
    renderer_128.characters_ 65 =
      some { texture := 66, size := ⟨30, 40⟩, bearing := ⟨2, 38⟩, advance := 2048 } ∧
    (replay renderer_128.vbo_ GLView.init
        (renderer_128.render [65] 100 200 1 white).gl).uploads[0]? =
      some (2,
        [[102, 238, 0, 0], [102, 198, 0, 1], [132, 198, 1, 1],
         [102, 238, 0, 0], [132, 198, 1, 1], [132, 238, 1, 0]]) ∧
    (renderer_128.render [65] 100 200 1 white).x = 132 := by
  have hi : ([65] : List GLchar)[0]? = some 65 := rfl
  have hc : renderer_128.characters_ 65 =
      some { texture := 66, size := ⟨30, 40⟩, bearing := ⟨2, 38⟩, advance := 2048 } := by
    simp [renderer_128, atlas_128]
  obtain ⟨xpos, ypos, w, h, e1, e2, e3, e4, hu, hx⟩ :=
    render_quad_origin_extent renderer_128 [65] 100 200 1 white 0 65 _ hi hc
  simp only [List.take_zero, render_x, List.map_nil, List.sum_nil] at e1
  have x1 : xpos = 102 := by rw [e1]; norm_num
  have y1 : ypos = 198 := by rw [e2]; norm_num
  have w1 : w = 30 := by rw [e3]; norm_num
  have h1 : h = 40 := by rw [e4]; norm_num
  refine ⟨hi, hc, ?_, ?_⟩
  · rw [hu, x1, y1, w1, h1]
    simp only [renderer_128]
    norm_num
  · simp only [List.take_zero, List.take_succ_cons, List.take_nil, zero_add] at hx
    have e : (2048 >>> 6 : Nat) = 32 := by decide
    rw [hx, render_x, e]
    norm_num

/-- C2: for every `n`, every character `c` of the atlas with advance `a` (in
1/64 pixel) and every start `x` and scale `s`, the cursor after `render` has
processed `n` copies of `c` is `x + n * (a >> 6) * s`, whatever `y` and the
colour are. -/
theorem render_cursor_replicate (r : renderer) (c : GLchar) (ch : character) (n : Nat)
    (x s : ℚ) (hc : r.characters_ c = some ch) :
    ∀ (y : ℚ) (color : vec3),
      (r.render (List.replicate n c) x y s color).x =
        x + (n : ℚ) * ((ch.advance >>> 6 : Nat) : ℚ) * s := by
  intro y color
  rw [render_x, List.map_replicate, List.sum_replicate]
  simp only [advance_px, glyph_of_some _ _ _ hc, smul_eq_mul, Nat.cast_mul]

/-- C2, instance: three copies of `'A'` (advance 2048) from `x = 100` at scale
1/2 leave the cursor at `100 + 3 * 32 / 2 = 148`. -/
theorem render_cursor_replicate_witness :
    renderer_128.characters_ 65 =
      some { texture := 66, size := ⟨30, 40⟩, bearing := ⟨2, 38⟩, advance := 2048 } ∧
    (renderer_128.render (List.replicate 3 65) 100 200 (1 / 2) white).x = 148 ∧
    (renderer_128.render (List.replicate 3 65) 100 (-7) (1 / 2) ⟨0, 0, 0⟩).x = 148 := by
  have hc : renderer_128.characters_ 65 =
      some { texture := 66, size := ⟨30, 40⟩, bearing := ⟨2, 38⟩, advance := 2048 } := by
    simp [renderer_128, atlas_128]
  have e : (2048 >>> 6 : Nat) = 32 := by decide
  have h := render_cursor_replicate renderer_128 65 _ 3 100 (1 / 2) hc
  refine ⟨hc, ?_, ?_⟩
  · rw [h 200 white, e]
    norm_num
  · rw [h (-7) ⟨0, 0, 0⟩, e]
    norm_num

/-- C3: for every text whose characters are all keys of the atlas, `render`
issues exactly `len(text)` sub-uploads to the vertex buffer and exactly
`len(text)` draws; the `i`-th upload carries the quad of the `i`-th character
at its cursor position, and the `i`-th draw is a triangle-list draw of 6
vertices that reads this quad with the texture of the `i`-th character bound.
For the empty text there is no upload and no draw. -/
theorem render_uploads_draws_in_order (r : renderer) (text : List GLchar) (x y scale : ℚ)
    (color : vec3) (hkeys : ∀ c ∈ text, (r.characters_ c).isSome) :
    (replay r.vbo_ GLView.init (r.render text x y scale color).gl).uploads.length
      = text.length ∧
    (replay r.vbo_ GLView.init (r.render text x y scale color).gl).draws.length
      = text.length ∧
    (∀ (i : Nat) (c : GLchar), text[i]? = some c →
      ∃ ch : character, r.characters_ c = some ch ∧
        (replay r.vbo_ GLView.init (r.render text x y scale color).gl).uploads[i]? =
          some (r.vbo_, quad.of ch (pen r.characters_ text x scale i) y scale) ∧
        (replay r.vbo_ GLView.init (r.render text x y scale color).gl).draws[i]? =
          some { texture := ch.texture,
                 vertices := quad.of ch (pen r.characters_ text x scale i) y scale,
                 mode := GL_TRIANGLES, first := 0, count := 6 }) ∧
    (replay r.vbo_ GLView.init (r.render [] x y scale color).gl).uploads = [] ∧
    (replay r.vbo_ GLView.init (r.render [] x y scale color).gl).draws = [] := by
  refine ⟨?_, ?_, ?_, ?_, ?_⟩
  · rw [(replay_render r text x y scale color).1, loop_uploads_length]
  · rw [(replay_render r text x y scale color).2, loop_draws_length]
  · intro i c hi
    obtain ⟨ch, hch⟩ := Option.isSome_iff_exists.mp (hkeys c (List.getElem?_mem hi))
    refine ⟨ch, hch, ?_, ?_⟩
    · rw [(replay_render r text x y scale color).1,
        loop_uploads_get r.vbo_ _ y scale text x i c hi, glyph_of_some _ _ _ hch]
    · rw [(replay_render r text x y scale color).2,
        loop_draws_get _ y scale text x i c hi, glyph_of_some _ _ _ hch]
  · rw [(replay_render r [] x y scale color).1]
    rfl
  · rw [(replay_render r [] x y scale color).2]
    rfl

/-- C3, instance: `render("AB", 100, 200, 1, white)` uploads two quads and
draws twice, first `'A'` at cursor 100, then `'B'` at cursor 132 with the
texture of `'B'` bound. -/
theorem render_uploads_draws_in_order_witness :
    (∀ c ∈ ([65, 66] : List GLchar), (renderer_128.characters_ c).isSome) ∧
    (replay renderer_128.vbo_ GLView.init
      (renderer_128.render [65, 66] 100 200 1 white).gl).uploads.length = 2 ∧
    (replay renderer_128.vbo_ GLView.init
      (renderer_128.render [65, 66] 100 200 1 white).gl).draws.length = 2 ∧
    (replay renderer_128.vbo_ GLView.init
      (renderer_128.render [65, 66] 100 200 1 white).gl).draws[1]? =
      some { texture := 67, vertices := quad.vertices 134 198 30 40,
             mode := GL_TRIANGLES, first := 0, count := 6 } := by
  have hk : ∀ c ∈ ([65, 66] : List GLchar), (renderer_128.characters_ c).isSome := by
    intro c hc
    simp only [List.mem_cons, List.mem_singleton, List.not_mem_nil, or_false] at hc
    rcases hc with rfl | rfl <;> simp [renderer_128, atlas_128]
  have h := render_uploads_draws_in_order renderer_128 [65, 66] 100 200 1 white hk
  refine ⟨hk, h.1, h.2.1, ?_⟩
  obtain ⟨ch, hch, _, hd⟩ := h.2.2.1 1 66 rfl
  have hrec : renderer_128.characters_ 66 =
      some { texture := 67, size := ⟨30, 40⟩, bearing := ⟨2, 38⟩, advance := 2048 } := by
    simp [renderer_128, atlas_128]
  rw [hrec] at hch
  cases hch
  rw [hd]
  have e : (2048 >>> 6 : Nat) = 32 := by decide
  simp [quad.of, quad.xpos, quad.ypos, quad.w, quad.h, pen, advance_px, glyph, renderer_128,
    atlas_128, e]
  norm_num

/-- C4, counterexample: on the text made of the single code 200, which is not
a key of the atlas, `render` completes, issues a draw of 6 vertices for that
character (texture 0, zero-area quad at the cursor) and leaves the cursor where
it was: the character is neither rejected nor skipped. -/
theorem render_unmapped_counterexample :
    renderer_128.characters_ 200 = none ∧
    (replay renderer_128.vbo_ GLView.init
      (renderer_128.render [200] 100 200 1 white).gl).draws =
      [{ texture := 0, vertices := quad.vertices 100 200 0 0,
         mode := GL_TRIANGLES, first := 0, count := 6 }] ∧
    (renderer_128.render [200] 100 200 1 white).x = 100 := by
  have hn : renderer_128.characters_ 200 = none := by
    simp [renderer_128, atlas_128]
  have hg : glyph renderer_128.characters_ 200 = character.zero := by
    unfold glyph
    rw [hn]
  refine ⟨hn, ?_, ?_⟩
  · rw [(replay_render renderer_128 [200] 100 200 1 white).2]
    simp only [loop_draws, hg]
    simp [character.zero, quad.of, quad.xpos, quad.ypos, quad.w, quad.h]
  · rw [render_x]
    simp [advance_px, hg, character.zero]

/-- C4, amended: for every text and every character `c` of it that is not a
key of the atlas, `render` does not fail and does not skip `c`. It issues one
upload and one draw per character of the text, and for `c` the draw is a
triangle-list draw of 6 vertices with texture 0 bound and the zero-area quad at
the cursor position; the cursor does not advance over `c`, and the lookup
leaves the all-zero record stored under `c`. -/
theorem render_unmapped_draws_zero_quad (r : renderer) (text : List GLchar) (x y scale : ℚ)
    (color : vec3) (i : Nat) (c : GLchar)
    (hi : text[i]? = some c) (hc : r.characters_ c = none) :
    (replay r.vbo_ GLView.init (r.render text x y scale color).gl).uploads.length
      = text.length ∧
    (replay r.vbo_ GLView.init (r.render text x y scale color).gl).draws.length
      = text.length ∧
    (replay r.vbo_ GLView.init (r.render text x y scale color).gl).draws[i]? =
      some { texture := 0,
             vertices := quad.vertices (r.render (text.take i) x y scale color).x y 0 0,
             mode := GL_TRIANGLES, first := 0, count := 6 } ∧
    (r.render (text.take (i + 1)) x y scale color).x =
      (r.render (text.take i) x y scale color).x ∧
    (r.render text x y scale color).characters_ c = some character.zero := by
  have hg : glyph r.characters_ c = character.zero := by
    unfold glyph
    rw [hc]
  refine ⟨?_, ?_, ?_, ?_, ?_⟩
  · rw [(replay_render r text x y scale color).1, loop_uploads_length]
  · rw [(replay_render r text x y scale color).2, loop_draws_length]
  · rw [(replay_render r text x y scale color).2, loop_draws_get _ y scale text x i c hi, hg,
      render_take_x]
    simp [character.zero, quad.of, quad.xpos, quad.ypos, quad.w, quad.h]
  · rw [render_take_x, render_take_x, pen_step _ _ _ _ _ _ hi]
    simp [advance_px, hg, character.zero]
  · rw [render_characters, if_pos (List.getElem?_mem hi), hg]

/-- C4, amended, instance: the text of codes 65 and 200 over the 128-code
atlas. -/
theorem render_unmapped_draws_zero_quad_witness :
    ([65, 200] : List GLchar)[1]? = some 200 ∧
    renderer_128.characters_ 200 = none ∧
    (replay renderer_128.vbo_ GLView.init
      (renderer_128.render [65, 200] 100 200 1 white).gl).draws.length = 2 ∧
    (renderer_128.render [65, 200] 100 200 1 white).characters_ 200
      = some character.zero := by
  have hi : ([65, 200] : List GLchar)[1]? = some 200 := rfl
  have hn : renderer_128.characters_ 200 = none := by
    simp [renderer_128, atlas_128]
  have h := render_unmapped_draws_zero_quad renderer_128 [65, 200] 100 200 1 white 1 200 hi hn
  exact ⟨hi, hn, h.2.1, h.2.2.2.2⟩

/-- C5, counterexample: rendering the single code 200, which is not a key of
the atlas, adds a record under 200 to the renderer's glyph mapping. -/
theorem render_changes_mapping_counterexample :
    renderer_128.characters_ 200 = none ∧
    (renderer_128.render [200] 100 200 1 white).characters_ 200 = some character.zero ∧
    (renderer_128.render [200] 100 200 1 white).characters_ ≠ renderer_128.characters_ := by
  have hn : renderer_128.characters_ 200 = none := by
    simp [renderer_128, atlas_128]
  have hs : (renderer_128.render [200] 100 200 1 white).characters_ 200
      = some character.zero := by
    rw [render_characters, if_pos (List.mem_singleton_self _)]
    unfold glyph
    rw [hn]
  refine ⟨hn, hs, ?_⟩
  intro heq
  rw [heq, hn] at hs
  exact Option.noConfusion hs

/-- C5, amended: for every text whose characters are all keys of the atlas,
and every position, scale and colour, `render` leaves the renderer's glyph
mapping exactly as it was. -/
theorem render_keeps_mapping (r : renderer) (text : List GLchar) (x y scale : ℚ)
    (color : vec3) (hkeys : ∀ c ∈ text, (r.characters_ c).isSome) :
    (r.render text x y scale color).characters_ = r.characters_ := by
  simp only [renderer.render]
  exact foldl_render_body_characters r.vbo_ y scale text _ hkeys

/-- C5, amended, instance: rendering `"AB"` over the 128-code atlas. -/
theorem render_keeps_mapping_witness :
    (∀ c ∈ ([65, 66] : List GLchar), (renderer_128.characters_ c).isSome) ∧
    (renderer_128.render [65, 66] 100 200 1 white).characters_
      = renderer_128.characters_ := by
  have hk : ∀ c ∈ ([65, 66] : List GLchar), (renderer_128.characters_ c).isSome := by
    intro c hc
    simp only [List.mem_cons, List.mem_singleton, List.not_mem_nil, or_false] at hc
    rcases hc with rfl | rfl <;> simp [renderer_128, atlas_128]
  exact ⟨hk, render_keeps_mapping renderer_128 [65, 66] 100 200 1 white hk⟩

theorem int_of_unsigned_of_lt (n : Nat) (h : n < 2 ^ 31) : int_of_unsigned n = (n : Int) := by
  have h1 : n % 2 ^ 32 = n := Nat.mod_eq_of_lt (by omega)
  unfold int_of_unsigned
  rw [h1, if_pos h]

theorem unsigned_of_long_of_range (v : Int) (h0 : 0 ≤ v) (h1 : v < 2 ^ 32) :
    unsigned_of_long v = v.toNat := by
  unfold unsigned_of_long
  rw [Int.emod_eq_of_lt h0 h1]

theorem load_characters_ok (lib : FreeType) (gen : Nat → GLuint) (font : String) (n : Nat) :
    ∀ (c : Nat) (characters : CharMap) (gl : List GLCall),
      (∀ j, c ≤ j → j < c + n → (lib.load_char font j).1 = 0) →
      (∀ k : Int, (c : Int) ≤ k → characters k = none) →
      ∃ m gl', load_characters lib gen font n c characters gl = (Except.ok m, gl') ∧
        ∀ k : Int, m k =
          if (c : Int) ≤ k ∧ k < (c : Int) + n then
            some (character.of_slot (gen k.toNat) (lib.load_char font k.toNat).2)
          else characters k := by
  induction n with
  | zero =>
    intro c characters gl _ _
    refine ⟨characters, gl, rfl, ?_⟩
    intro k
    have : ¬ ((c : Int) ≤ k ∧ k < (c : Int) + ((0 : Nat) : Int)) := by
      push_cast
      omega
    rw [if_neg this]
  | succ n ih =>
    intro c characters gl hload hfree
    have h0 : (lib.load_char font c).1 = 0 := hload c (le_refl c) (by omega)
    have hnone : characters (c : Int) = none := hfree c (le_refl _)
    simp only [load_characters, h0, ne_eq, not_true_eq_false, if_false]
    obtain ⟨m, gl', hm, hk⟩ := ih (c + 1)
      (characters.insert (c : Int)
        (character.of_slot (gen c) (lib.load_char font c).2))
      (gl ++
        [glGenTextures 1 (gen c),
         glBindTexture GL_TEXTURE_2D (gen c),
         glTexImage2D GL_TEXTURE_2D 0 GL_RED
           (int_of_unsigned (lib.load_char font c).2.bitmap_width)
           (int_of_unsigned (lib.load_char font c).2.bitmap_rows) 0 GL_RED GL_UNSIGNED_BYTE
           (lib.load_char font c).2.bitmap_buffer,
         glTexParameteri GL_TEXTURE_2D GL_TEXTURE_WRAP_S GL_CLAMP_TO_EDGE,
         glTexParameteri GL_TEXTURE_2D GL_TEXTURE_WRAP_T GL_CLAMP_TO_EDGE,
         glTexParameteri GL_TEXTURE_2D GL_TEXTURE_MIN_FILTER GL_LINEAR,
         glTexParameteri GL_TEXTURE_2D GL_TEXTURE_MAG_FILTER GL_LINEAR])
      (fun j h1 h2 => hload j (by omega) (by omega))
      (by
        intro k hk
        have hne : k ≠ (c : Int) := by push_cast at hk; omega
        have := hfree k (by push_cast at hk; omega)
        simp [CharMap.insert, hne, this])
    refine ⟨m, gl', hm, ?_⟩
    intro k
    rw [hk k]
    by_cases hkc : k = (c : Int)
    · subst hkc
      have h1 : ¬ (((c + 1 : Nat) : Int) ≤ (c : Int) ∧
          (c : Int) < ((c + 1 : Nat) : Int) + (n : Int)) := by
        push_cast
        omega
      have h2 : ((c : Int) ≤ (c : Int) ∧ (c : Int) < (c : Int) + ((n + 1 : Nat) : Int)) := by
        push_cast
        omega
      rw [if_neg h1, if_pos h2]
      simp [CharMap.insert, hnone]
    · by_cases hr : ((c : Int) ≤ k ∧ k < (c : Int) + ((n + 1 : Nat) : Int))
      · have h1 : (((c + 1 : Nat) : Int) ≤ k ∧ k < ((c + 1 : Nat) : Int) + (n : Int)) := by
          push_cast at hr ⊢
          omega
        rw [if_pos h1, if_pos hr]
      · have h1 : ¬ (((c + 1 : Nat) : Int) ≤ k ∧ k < ((c + 1 : Nat) : Int) + (n : Int)) := by
          push_cast at hr ⊢
          omega
        rw [if_neg h1, if_neg hr]
        simp [CharMap.insert, hkc]

theorem load_characters_error (lib : FreeType) (gen : Nat → GLuint) (font : String) (n : Nat) :
    ∀ (c : Nat) (characters : CharMap) (gl : List GLCall),
      (∃ j, c ≤ j ∧ j < c + n ∧ (lib.load_char font j).1 ≠ 0) →
      ∃ gl', load_characters lib gen font n c characters gl =
        (Except.error "failed to load glyph", gl') := by
  induction n with
  | zero =>
    intro c characters gl h
    obtain ⟨j, h1, h2, _⟩ := h
    omega
  | succ n ih =>
    intro c characters gl h
    by_cases h0 : (lib.load_char font c).1 = 0
    · simp only [load_characters, h0, ne_eq, not_true_eq_false, if_false]
      apply ih
      obtain ⟨j, h1, h2, h3⟩ := h
      have : j ≠ c := by
        intro e
        subst e
        exact h3 h0
      exact ⟨j, by omega, by omega, h3⟩
    · exact ⟨gl, by simp [load_characters, h0]⟩

theorem init_characters_init_failed (lib : FreeType) (gen : Nat → GLuint) (font : String)
    (h1 : lib.init_error ≠ 0) :
    (init_characters lib gen font).result = Except.error "could not init freetype lib" ∧
    (init_characters lib gen font).held = { library := false, face := false } := by
  simp [init_characters, FT_Init_FreeType, h1]

theorem init_characters_face_failed (lib : FreeType) (gen : Nat → GLuint) (font : String)
    (h1 : lib.init_error = 0) (h2 : lib.new_face_error font ≠ 0) :
    (init_characters lib gen font).result = Except.error "failed to load font" ∧
    (init_characters lib gen font).held = { library := true, face := false } := by
  simp [init_characters, FT_Init_FreeType, FT_New_Face, h1, h2]

theorem init_characters_glyph_failed (lib : FreeType) (gen : Nat → GLuint) (font : String)
    (h1 : lib.init_error = 0) (h2 : lib.new_face_error font = 0)
    (h3 : ∃ c, c < 128 ∧ (lib.load_char font c).1 ≠ 0) :
    (init_characters lib gen font).result = Except.error "failed to load glyph" ∧
    (init_characters lib gen font).held = { library := true, face := true } := by
  obtain ⟨c, hc, hne⟩ := h3
  obtain ⟨gl', hl⟩ := load_characters_error lib gen font 128 0 CharMap.empty
    [glPixelStorei GL_UNPACK_ALIGNMENT 1] ⟨c, Nat.zero_le c, by omega, hne⟩
  simp [init_characters, FT_Init_FreeType, FT_New_Face, h1, h2, hl]

theorem init_characters_succeeded (lib : FreeType) (gen : Nat → GLuint) (font : String)
    (h1 : lib.init_error = 0) (h2 : lib.new_face_error font = 0)
    (h3 : ∀ c, c < 128 → (lib.load_char font c).1 = 0) :
    ∃ m, (init_characters lib gen font).result = Except.ok m ∧
      (init_characters lib gen font).held = { library := false, face := false } ∧
      ∀ k : Int, m k =
        if 0 ≤ k ∧ k < 128 then
          some (character.of_slot (gen k.toNat) (lib.load_char font k.toNat).2)
        else none := by
  obtain ⟨m, gl', hl, hm⟩ := load_characters_ok lib gen font 128 0 CharMap.empty
    [glPixelStorei GL_UNPACK_ALIGNMENT 1] (fun j _ hj => h3 j (by omega)) (fun _ _ => rfl)
  refine ⟨m, ?_, ?_, ?_⟩
  · simp [init_characters, FT_Init_FreeType, FT_New_Face, h1, h2, hl]
  · simp [init_characters, FT_Init_FreeType, FT_New_Face, FT_Done_Face, FT_Done_FreeType,
      h1, h2, hl]
  · intro k
    rw [hm k]
    simp [CharMap.empty]

/-! ## The claims on `init_characters` -/

/-- C6, counterexample: a rasterizer that loads every code and reports the
advance -64 for code 65 makes `init_characters` return a mapping whose record
for 65 holds the advance 4294967232, which is not the advance reported. -/
theorem init_characters_narrows_counterexample :
    (freetype_negative_advance.load_char "fonts/arial.ttf" 65).1 = 0 ∧
    (freetype_negative_advance.load_char "fonts/arial.ttf" 65).2.advance_x = -64 ∧
    (∃ m, (init_characters freetype_negative_advance gen_succ "fonts/arial.ttf").result
        = Except.ok m ∧
      m 65 = some
        { texture := 66, size := ⟨30, 40⟩, bearing := ⟨2, 38⟩, advance := 4294967232 }) ∧
    ((4294967232 : Nat) : Int) ≠ -64 := by
  refine ⟨rfl, rfl, ?_, by decide⟩
  obtain ⟨m, hr, _, hm⟩ := init_characters_succeeded freetype_negative_advance gen_succ
    "fonts/arial.ttf" rfl rfl (fun _ _ => rfl)
  refine ⟨m, hr, ?_⟩
  rw [hm 65]
  simp [character.of_slot, freetype_negative_advance, slot_A, gen_succ, int_of_unsigned,
    unsigned_of_long]

/-- C6, amended: for every font path and every behaviour of the rasterizer,
`init_characters` either returns a mapping whose keys are exactly the codes 0
to 127, the record under each code `c` holding the texture created for `c` and
the size, bearing and advance the rasterizer reported for `c` as converted to
the member types of the record (width and rows to `int`, the advance to
`unsigned int`, both modulo `2^32`), hence exactly the reported values whenever
width and rows are below `2^31` and the advance is in `[0, 2^32)`; or it throws
and returns no mapping. It throws exactly when the library cannot be
initialised, the font cannot be loaded, or some code below 128 cannot be
rasterized. -/
theorem init_characters_all_or_nothing (lib : FreeType) (gen : Nat → GLuint)
    (font : String) :
    ((∃ m, (init_characters lib gen font).result = Except.ok m ∧
        (∀ k : GLchar, (m k).isSome ↔ (0 ≤ k ∧ k < 128)) ∧
        (∀ c : Nat, c < 128 →
          (lib.load_char font c).1 = 0 ∧
          m (c : Int) = some
            { texture := gen c
              size := ⟨int_of_unsigned (lib.load_char font c).2.bitmap_width,
                       int_of_unsigned (lib.load_char font c).2.bitmap_rows⟩
              bearing := ⟨(lib.load_char font c).2.bitmap_left,
                          (lib.load_char font c).2.bitmap_top⟩
              advance := unsigned_of_long (lib.load_char font c).2.advance_x } ∧
          ((lib.load_char font c).2.bitmap_width < 2 ^ 31 →
           (lib.load_char font c).2.bitmap_rows < 2 ^ 31 →
           0 ≤ (lib.load_char font c).2.advance_x →
           (lib.load_char font c).2.advance_x < 2 ^ 32 →
            m (c : Int) = some
              { texture := gen c
                size := ⟨((lib.load_char font c).2.bitmap_width : Int),
                         ((lib.load_char font c).2.bitmap_rows : Int)⟩
                bearing := ⟨(lib.load_char font c).2.bitmap_left,
                            (lib.load_char font c).2.bitmap_top⟩
                advance := (lib.load_char font c).2.advance_x.toNat }))) ∨
     (∃ e, (init_characters lib gen font).result = Except.error e)) ∧
    ((∃ e, (init_characters lib gen font).result = Except.error e) ↔
      (lib.init_error ≠ 0 ∨ lib.new_face_error font ≠ 0 ∨
        ∃ c, c < 128 ∧ (lib.load_char font c).1 ≠ 0)) := by
  by_cases h1 : lib.init_error = 0
  · by_cases h2 : lib.new_face_error font = 0
    · by_cases h3 : ∀ c, c < 128 → (lib.load_char font c).1 = 0
      · obtain ⟨m, hr, _, hm⟩ := init_characters_succeeded lib gen font h1 h2 h3
        constructor
        · left
          refine ⟨m, hr, ?_, ?_⟩
          · intro k
            rw [hm k]
            by_cases hk : 0 ≤ k ∧ k < 128
            · simp [hk]
            · simp [hk]
          · intro c hc
            have hrec : m (c : Int) =
                some (character.of_slot (gen c) (lib.load_char font c).2) := by
              rw [hm (c : Int)]
              have : (0 : Int) ≤ (c : Int) ∧ (c : Int) < 128 := by omega
              rw [if_pos this]
              simp
            refine ⟨h3 c hc, ?_, ?_⟩
            · rw [hrec]
              rfl
            · intro hw hrows ha0 ha1
              rw [hrec]
              simp only [character.of_slot, int_of_unsigned_of_lt _ hw,
                int_of_unsigned_of_lt _ hrows, unsigned_of_long_of_range _ ha0 ha1]
        · constructor
          · rintro ⟨e, he⟩
            rw [hr] at he
            exact Except.noConfusion he
          · rintro (h | h | ⟨c, hc, hne⟩)
            · exact absurd h1 h
            · exact absurd h2 h
            · exact absurd (h3 c hc) hne
      · have h3' : ∃ c, c < 128 ∧ (lib.load_char font c).1 ≠ 0 := by
          by_contra hcon
          apply h3
          intro c hc
          by_contra hne
          exact hcon ⟨c, hc, hne⟩
        have hr := (init_characters_glyph_failed lib gen font h1 h2 h3').1
        exact ⟨Or.inr ⟨_, hr⟩, ⟨fun _ => Or.inr (Or.inr h3'), fun _ => ⟨_, hr⟩⟩⟩
    · have hr := (init_characters_face_failed lib gen font h1 h2).1
      exact ⟨Or.inr ⟨_, hr⟩, ⟨fun _ => Or.inr (Or.inl h2), fun _ => ⟨_, hr⟩⟩⟩
  · have hr := (init_characters_init_failed lib gen font h1).1
    exact ⟨Or.inr ⟨_, hr⟩, ⟨fun _ => Or.inl h1, fun _ => ⟨_, hr⟩⟩⟩

/-- C6, amended, instance: with a rasterizer that loads every code and reports
the metrics of the worked example, which are in range, `init_characters`
returns a mapping whose record for code 65 holds exactly those metrics and the
texture created for 65. -/
theorem init_characters_all_or_nothing_witness :
    ∃ m, (init_characters freetype_ok gen_succ "fonts/arial.ttf").result = Except.ok m ∧
      (∀ k : GLchar, (m k).isSome ↔ (0 ≤ k ∧ k < 128)) ∧
      m 65 = some
        { texture := 66, size := ⟨30, 40⟩, bearing := ⟨2, 38⟩, advance := 2048 } := by
  obtain ⟨hcases, hthrow⟩ := init_characters_all_or_nothing freetype_ok gen_succ "fonts/arial.ttf"
  rcases hcases with ⟨m, hr, hkeys, hrec⟩ | herr
  · refine ⟨m, hr, hkeys, ?_⟩
    have h := (hrec 65 (by omega)).2.2 (by simp [freetype_ok, slot_A])
      (by simp [freetype_ok, slot_A]) (by simp [freetype_ok, slot_A])
      (by simp [freetype_ok, slot_A])
    have e : ((65 : Nat) : Int) = 65 := rfl
    rw [e] at h
    rw [h]
    simp [freetype_ok, slot_A, gen_succ]
  · rcases hthrow.mp herr with h | h | ⟨c, _, h⟩
    · exact absurd rfl h
    · exact absurd rfl h
    · exact absurd rfl h

/-- C7, the code at its failing inputs: when the font cannot be opened,
`init_characters` throws while the library handle is still held; when a
character code cannot be rasterized, it throws while the library handle and
the face handle are both still held. Only the path on which every call
succeeds releases them. -/
theorem init_characters_holds_handles_on_throw :
    (init_characters freetype_no_font gen_succ "fonts/arial.ttf").result
      = Except.error "failed to load font" ∧
    (init_characters freetype_no_font gen_succ "fonts/arial.ttf").held
      = { library := true, face := false } ∧
    (init_characters freetype_no_glyph gen_succ "fonts/arial.ttf").result
      = Except.error "failed to load glyph" ∧
    (init_characters freetype_no_glyph gen_succ "fonts/arial.ttf").held
      = { library := true, face := true } ∧
    (init_characters freetype_ok gen_succ "fonts/arial.ttf").held
      = { library := false, face := false } := by
  have a := init_characters_face_failed freetype_no_font gen_succ "fonts/arial.ttf" rfl
    (by simp [freetype_no_font])
  have b := init_characters_glyph_failed freetype_no_glyph gen_succ "fonts/arial.ttf" rfl rfl
    ⟨100, by omega, by simp [freetype_no_glyph]⟩
  obtain ⟨m, _, hc, _⟩ := init_characters_succeeded freetype_ok gen_succ "fonts/arial.ttf"
    rfl rfl (fun _ _ => rfl)
  exact ⟨a.1, a.2, b.1, b.2, hc⟩

theorem loop_uploads_map_snd (vbo vbo' : GLuint) (g : GLchar → character) (y scale : ℚ)
    (text : List GLchar) :
    ∀ x : ℚ, (loop_uploads vbo g y scale x text).map Prod.snd =
      (loop_uploads vbo' g y scale x text).map Prod.snd := by
  induction text with
  | nil => intro x; rfl
  | cons c cs ih => intro x; simp only [loop_uploads, List.map_cons, ih]

theorem exists_fraction (W d : ℚ) (hW : 0 ≤ W) (h0 : 0 ≤ d) (h1 : d ≤ W) :
    ∃ a : ℚ, 0 ≤ a ∧ a ≤ 1 ∧ a * W = d := by
  by_cases hz : W = 0
  · refine ⟨0, le_refl 0, zero_le_one, ?_⟩
    subst hz
    linarith
  · have hpos : 0 < W := lt_of_le_of_ne hW (Ne.symm hz)
    refine ⟨d / W, div_nonneg h0 hW, (div_le_one hpos).mpr h1, ?_⟩
    field_simp

theorem triangles_cover_rect (X Y W H : ℚ) (hW : 0 ≤ W) (hH : 0 ≤ H) (p : ℚ × ℚ) :
    (in_triangle (X, Y + H) (X, Y) (X + W, Y) p ∨
      in_triangle (X, Y + H) (X + W, Y) (X + W, Y + H) p) ↔ in_rect X Y W H p := by
  constructor
  · rintro (⟨u, v, t, hu, hv, ht, hs, hx, hy⟩ | ⟨u, v, t, hu, hv, ht, hs, hx, hy⟩)
    · simp only at hx hy
      have ex : p.1 = X + t * W := by rw [hx]; linear_combination X * hs
      have ey : p.2 = Y + u * H := by rw [hy]; linear_combination Y * hs
      have t1 : t ≤ 1 := by linarith
      have u1 : u ≤ 1 := by linarith
      refine ⟨?_, ?_, ?_, ?_⟩
      · rw [ex]; nlinarith [mul_nonneg ht hW]
      · rw [ex]; nlinarith [mul_nonneg (sub_nonneg.mpr t1) hW]
      · rw [ey]; nlinarith [mul_nonneg hu hH]
      · rw [ey]; nlinarith [mul_nonneg (sub_nonneg.mpr u1) hH]
    · simp only at hx hy
      have ex : p.1 = X + (v + t) * W := by rw [hx]; linear_combination X * hs
      have ey : p.2 = Y + (u + t) * H := by rw [hy]; linear_combination Y * hs
      have t1 : v + t ≤ 1 := by linarith
      have u1 : u + t ≤ 1 := by linarith
      refine ⟨?_, ?_, ?_, ?_⟩
      · rw [ex]; nlinarith [mul_nonneg (add_nonneg hv ht) hW]
      · rw [ex]; nlinarith [mul_nonneg (sub_nonneg.mpr t1) hW]
      · rw [ey]; nlinarith [mul_nonneg (add_nonneg hu ht) hH]
      · rw [ey]; nlinarith [mul_nonneg (sub_nonneg.mpr u1) hH]
  · rintro ⟨hx0, hx1, hy0, hy1⟩
    obtain ⟨a, ha0, ha1, ha⟩ := exists_fraction W (p.1 - X) hW (by linarith) (by linarith)
    obtain ⟨b, hb0, hb1, hb⟩ := exists_fraction H (p.2 - Y) hH (by linarith) (by linarith)
    by_cases hab : a + b ≤ 1
    · left
      refine ⟨b, 1 - a - b, a, hb0, by linarith, ha0, by ring, ?_, ?_⟩
      · simp only
        linear_combination -ha
      · simp only
        linear_combination -hb
    · right
      refine ⟨1 - a, 1 - b, a + b - 1, by linarith, by linarith, by linarith, by ring, ?_, ?_⟩
      · simp only
        linear_combination -ha
      · simp only
        linear_combination -hb

theorem triangles_meet_on_diagonal (X Y W H : ℚ) (p : ℚ × ℚ) :
    (in_triangle (X, Y + H) (X, Y) (X + W, Y) p ∧
      in_triangle (X, Y + H) (X + W, Y) (X + W, Y + H) p) ↔
    on_segment (X, Y + H) (X + W, Y) p := by
  constructor
  · rintro ⟨⟨u1, v1, t1, hu1, hv1, ht1, hs1, hx1, hy1⟩,
      ⟨u2, v2, t2, hu2, hv2, ht2, hs2, hx2, hy2⟩⟩
    simp only at hx1 hy1 hx2 hy2
    have ex1 : p.1 = X + t1 * W := by rw [hx1]; linear_combination X * hs1
    have ey1 : p.2 = Y + u1 * H := by rw [hy1]; linear_combination Y * hs1
    have ex2 : p.1 = X + (v2 + t2) * W := by rw [hx2]; linear_combination X * hs2
    have ey2 : p.2 = Y + (u2 + t2) * H := by rw [hy2]; linear_combination Y * hs2
    by_cases hH : H = 0
    · refine ⟨t1, ht1, by linarith, ?_, ?_⟩
      · simp only
        rw [ex1]; ring
      · simp only
        rw [ey1, hH]; ring
    · by_cases hW : W = 0
      · refine ⟨1 - u1, by linarith, by linarith, ?_, ?_⟩
        · simp only
          rw [ex1, hW]; ring
        · simp only
          rw [ey1]; ring
      · have e1 : t1 = v2 + t2 := by
          have : (t1 - (v2 + t2)) * W = 0 := by linear_combination ex2 - ex1
          rcases mul_eq_zero.mp this with h | h
          · linarith
          · exact absurd h hW
        have e2 : u1 = u2 + t2 := by
          have : (u1 - (u2 + t2)) * H = 0 := by linear_combination ey2 - ey1
          rcases mul_eq_zero.mp this with h | h
          · linarith
          · exact absurd h hH
        have hv : v1 = 0 := by linarith
        have hu : u1 = 1 - t1 := by linarith
        refine ⟨t1, ht1, by linarith, ?_, ?_⟩
        · simp only
          rw [ex1]; ring
        · simp only
          rw [ey1, hu]; ring
  · rintro ⟨t, ht0, ht1, hx, hy⟩
    simp only at hx hy
    constructor
    · exact ⟨1 - t, 0, t, by linarith, le_refl 0, ht0, by ring, by simp only; rw [hx]; ring,
        by simp only; rw [hy]; ring⟩
    · exact ⟨1 - t, t, 0, by linarith, ht0, le_refl 0, by ring, by simp only; rw [hx]; ring,
        by simp only; rw [hy]; ring⟩

/-! ## The claims on resize, scaling and quad geometry -/

/-- C8: `update_size(w2, h2)` followed by `render` uploads and draws vertex
data identical to that of a fresh renderer constructed with `(w2, h2)` over the
same atlas, for the same text, position and scale, whatever the earlier size
`(w1, h1)` was; the viewport size reaches the context only through the
`projection` uniform, which is the same in both cases. -/
theorem update_size_render_same_vertex_data (program : GLuint) (characters : CharMap)
    (w1 h1 w2 h2 : ℚ) (vao vbo vao2 vbo2 : GLuint) (text : List GLchar) (x y scale : ℚ)
    (color : vec3) :
    vertex_data
        ((renderer.construct program characters w1 h1 vao vbo).1.update_size w2 h2).1
        text x y scale color =
      vertex_data (renderer.construct program characters w2 h2 vao2 vbo2).1
        text x y scale color ∧
    (replay vbo GLView.init
        (((renderer.construct program characters w1 h1 vao vbo).1.update_size w2 h2).1.render
          text x y scale color).gl).draws =
      (replay vbo2 GLView.init
        ((renderer.construct program characters w2 h2 vao2 vbo2).1.render
          text x y scale color).gl).draws ∧
    projection_uniform program
        ((renderer.construct program characters w1 h1 vao vbo).2 ++
          ((renderer.construct program characters w1 h1 vao vbo).1.update_size w2 h2).2) =
      some (ortho 0 w2 0 h2) ∧
    projection_uniform program (renderer.construct program characters w2 h2 vao2 vbo2).2 =
      some (ortho 0 w2 0 h2) := by
  refine ⟨?_, ?_, ?_, ?_⟩
  · simp only [vertex_data, (replay_render _ text x y scale color).1]
    exact loop_uploads_map_snd _ _ _ _ _ _ _
  · have a := (replay_render
      ((renderer.construct program characters w1 h1 vao vbo).1.update_size w2 h2).1
      text x y scale color).2
    have b := (replay_render (renderer.construct program characters w2 h2 vao2 vbo2).1
      text x y scale color).2
    simp only [renderer.construct, renderer.update_size] at a b
    simp only [renderer.construct, renderer.update_size]
    rw [a, b]
  · simp [projection_uniform, renderer.construct, renderer.update_size,
      renderer.init_shader, renderer.init_vertices]
  · simp [projection_uniform, renderer.construct, renderer.init_shader,
      renderer.init_vertices]

/-- C9, counterexample: with `scale1 = 0` and `scale2 = 1` the glyph of size
(30, 40) has width 30 at `scale2`, while `w(scale1) * scale2 / scale1` is a
quotient by zero, which is not 30. -/
theorem quad_extent_scale_zero_counterexample :
    (1 : ℚ) > 0 ∧ (0 : ℚ) ≥ 0 ∧
    quad.w (character.of_slot 1 slot_A) 0 = 0 ∧
    quad.w (character.of_slot 1 slot_A) 1 = 30 ∧
    quad.w (character.of_slot 1 slot_A) 1 ≠ quad.w (character.of_slot 1 slot_A) 0 * 1 / 0 := by
  refine ⟨by norm_num, le_refl _, ?_, ?_, ?_⟩ <;>
    simp [quad.w, character.of_slot, slot_A, int_of_unsigned]

/-- C9, amended: for every glyph record and every pair of scales with
`scale2 > scale1 > 0`, the quad width and height `render` computes satisfy
`w(scale2) = w(scale1) * scale2 / scale1` and
`h(scale2) = h(scale1) * scale2 / scale1`. -/
theorem quad_extent_scales_linearly (ch : character) (scale1 scale2 : ℚ)
    (h1 : 0 < scale1) (h2 : scale1 < scale2) :
    quad.w ch scale2 = quad.w ch scale1 * scale2 / scale1 ∧
    quad.h ch scale2 = quad.h ch scale1 * scale2 / scale1 := by
  have hne : scale1 ≠ 0 := ne_of_gt h1
  have _ := h2
  constructor
  · simp only [quad.w]
    field_simp
    ring
  · simp only [quad.h]
    field_simp
    ring

/-- C9, amended, instance: the glyph of size (30, 40) at scales 1/2 and 2. -/
theorem quad_extent_scales_linearly_witness :
    (0 : ℚ) < 1 / 2 ∧ (1 / 2 : ℚ) < 2 ∧
    quad.w (character.of_slot 1 slot_A) 2 =
      quad.w (character.of_slot 1 slot_A) (1 / 2) * 2 / (1 / 2) ∧
    quad.h (character.of_slot 1 slot_A) 2 =
      quad.h (character.of_slot 1 slot_A) (1 / 2) * 2 / (1 / 2) :=
  ⟨by norm_num, by norm_num,
    quad_extent_scales_linearly (character.of_slot 1 slot_A) (1 / 2) 2 (by norm_num)
      (by norm_num)⟩

/-- C10: for every glyph, of bitmap size at least 0 by 0, and every scale at
least 0, the 6 vertices `render` emits are the corners top-left, bottom-left,
bottom-right, top-left, bottom-right, top-right of the rectangle
`[xpos, xpos + w] x [ypos, ypos + h]` with texture coordinates (0,0), (0,1),
(1,1), (0,0), (1,1), (1,0); they form two triangles whose union is exactly that
rectangle and whose intersection is exactly the diagonal from
`(xpos, ypos + h)` to `(xpos + w, ypos)`. -/
theorem quad_is_two_triangles (ch : character) (x y scale : ℚ)
    (hs : 0 ≤ scale) (hx : 0 ≤ ch.size.x) (hy : 0 ≤ ch.size.y) :
    (quad.of ch x y scale).map (fun v => (position v, texcoord v)) =
      [((quad.xpos ch x scale, quad.ypos ch y scale + quad.h ch scale), (0, 0)),
       ((quad.xpos ch x scale, quad.ypos ch y scale), (0, 1)),
       ((quad.xpos ch x scale + quad.w ch scale, quad.ypos ch y scale), (1, 1)),
       ((quad.xpos ch x scale, quad.ypos ch y scale + quad.h ch scale), (0, 0)),
       ((quad.xpos ch x scale + quad.w ch scale, quad.ypos ch y scale), (1, 1)),
       ((quad.xpos ch x scale + quad.w ch scale,
          quad.ypos ch y scale + quad.h ch scale), (1, 0))] ∧
    ∃ t1 t2 : (ℚ × ℚ) × (ℚ × ℚ) × (ℚ × ℚ),
      triangles (quad.of ch x y scale) = [t1, t2] ∧
      (∀ p : ℚ × ℚ,
        (in_triangle t1.1 t1.2.1 t1.2.2 p ∨ in_triangle t2.1 t2.2.1 t2.2.2 p) ↔
          in_rect (quad.xpos ch x scale) (quad.ypos ch y scale) (quad.w ch scale)
            (quad.h ch scale) p) ∧
      (∀ p : ℚ × ℚ,
        (in_triangle t1.1 t1.2.1 t1.2.2 p ∧ in_triangle t2.1 t2.2.1 t2.2.2 p) ↔
          on_segment (quad.xpos ch x scale, quad.ypos ch y scale + quad.h ch scale)
            (quad.xpos ch x scale + quad.w ch scale, quad.ypos ch y scale) p) := by
  have hW : 0 ≤ quad.w ch scale := mul_nonneg (Int.cast_nonneg.mpr hx) hs
  have hH : 0 ≤ quad.h ch scale := mul_nonneg (Int.cast_nonneg.mpr hy) hs
  refine ⟨?_, _, _, rfl, ?_, ?_⟩
  · simp [quad.of, quad.vertices, position, texcoord]
  · intro p
    exact triangles_cover_rect _ _ _ _ hW hH p
  · intro p
    exact triangles_meet_on_diagonal _ _ _ _ p

/-- C10, instance: the glyph `'A'` of the worked example at `(100, 200)` and
scale 1 gives the rectangle `[102, 132] x [198, 238]`. -/
theorem quad_is_two_triangles_witness :
    (0 : ℚ) ≤ 1 ∧ (0 : Int) ≤ (character.of_slot 1 slot_A).size.x ∧
    (0 : Int) ≤ (character.of_slot 1 slot_A).size.y ∧
    (quad.of (character.of_slot 1 slot_A) 100 200 1).map (fun v => (position v, texcoord v)) =
      [((102, 238), (0, 0)), ((102, 198), (0, 1)), ((132, 198), (1, 1)),
       ((102, 238), (0, 0)), ((132, 198), (1, 1)), ((132, 238), (1, 0))] := by
  have hs : (0 : ℚ) ≤ 1 := zero_le_one
  have hx : (0 : Int) ≤ (character.of_slot 1 slot_A).size.x := by
    simp [character.of_slot, slot_A, int_of_unsigned]
  have hy : (0 : Int) ≤ (character.of_slot 1 slot_A).size.y := by
    simp [character.of_slot, slot_A, int_of_unsigned]
  refine ⟨hs, hx, hy, ?_⟩
  rw [(quad_is_two_triangles (character.of_slot 1 slot_A) 100 200 1 hs hx hy).1]
  simp [quad.xpos, quad.ypos, quad.w, quad.h, character.of_slot, slot_A, int_of_unsigned]
  norm_num

end ascii
